import Mathlib

/-
Verification of the batch statistical-aggregation engine in
`samri/report/snr.py` (functions `significant_signal`,
`iter_significant_signal`, `base_metrics`, `iter_base_metrics`).

Modelling conventions
---------------------
* Voxel values are IEEE-like floats modelled by `PyF`: either NaN or a
  rational number.  The transcendental map `q ↦ -log10 q` (on positive
  arguments) and the square root used by `np.std` are not rational-valued,
  so they are taken as parameters `L, S : ℚ → ℚ` of the embedded
  functions; no claim below depends on their values (only `S 0 = 0`,
  true of any square root, is ever assumed).
* A NIfTI image is its voxel list: a 3-D map is `List PyF` (flattened),
  a 4-D series is `List (List PyF)` in series-major order, matching the
  iteration over `data.T` in `base_metrics`.
* The filesystem, `os.path.abspath ∘ os.path.expanduser` and
  `mp.cpu_count()` are environment data, collected in `Env`.
* `numpy` reductions on a `np.ma.masked_array` (nonzero, mean, median)
  ignore masked entries, so applying the mask is modelled by dropping
  the voxels whose mask value is `< 0.5` from the list.
* Exceptions are modelled by `Except Err`; joblib's `Parallel` over
  `map(delayed(f), ...)` preserves input order and re-raises the first
  worker exception, which `mapE` models sequentially.
-/

attribute [local semireducible] Rat.add Rat.mul Rat.inv Rat.sub

inductive PyF where
  | nan : PyF
  | fin : ℚ → PyF
deriving DecidableEq, Repr

def PyF.isNan : PyF → Bool
  | .nan => true
  | .fin _ => false

def PyF.toQ : PyF → Option ℚ
  | .nan => none
  | .fin q => some q

/-- `x == 0` in numpy: NaN compares unequal to everything. -/
def PyF.isZero : PyF → Bool
  | .nan => false
  | .fin q => q == 0

/-- `np.nonzero` keeps every entry that is not exactly zero; NaN counts as nonzero. -/
def PyF.isNonzero (x : PyF) : Bool := !x.isZero

/-- IEEE `<`: any comparison with NaN is false. -/
def PyF.lt : PyF → PyF → Bool
  | .fin a, .fin b => decide (a < b)
  | _, _ => false

/-- IEEE multiplication: NaN propagates. -/
def PyF.mul : PyF → PyF → PyF
  | .fin a, .fin b => .fin (a * b)
  | _, _ => .nan

inductive Err where
  | valueError : Err
  | keyError : String → Err
  | fileNotFound : String → Err
  | shapeMismatch : Err
  | indexError : Err
deriving DecidableEq, Repr

def sumQ : List ℚ → ℚ
  | [] => 0
  | a :: t => a + sumQ t

def minQ : List ℚ → ℚ
  | [] => 0
  | [a] => a
  | a :: b :: t => min a (minQ (b :: t))

def insertQ (a : ℚ) : List ℚ → List ℚ
  | [] => [a]
  | b :: t => if a ≤ b then a :: b :: t else b :: insertQ a t

def sortQ : List ℚ → List ℚ
  | [] => []
  | a :: t => insertQ a (sortQ t)

/-- `np.median` of a NaN-free list: middle of the sorted values, or the
mean of the two middle values for even length. -/
def medianQ (l : List ℚ) : ℚ :=
  let s := sortQ l
  if l.length % 2 = 1 then s.getD (l.length / 2) 0
  else (s.getD (l.length / 2 - 1) 0 + s.getD (l.length / 2) 0) / 2

def countQ (l : List ℚ) (q : ℚ) : ℕ := (l.filter (fun x => x == q)).length

/-- Fold selecting the most frequent value, breaking ties toward the
smaller value, as `scipy.stats.mode` does. -/
def modeBest (l : List ℚ) : ℚ → List ℚ → ℚ
  | b, [] => b
  | b, x :: t =>
    if countQ l b < countQ l x ∨ (countQ l x = countQ l b ∧ x < b)
    then modeBest l x t else modeBest l b t

def modeQ : List ℚ → ℚ
  | [] => 0
  | a :: t => modeBest (a :: t) a t

/-- `np.min`: raises `ValueError` on an empty array, propagates NaN otherwise. -/
def pymin (l : List PyF) : Except Err PyF :=
  if l.isEmpty then .error .valueError
  else if l.any PyF.isNan then .ok .nan
  else .ok (.fin (minQ (l.filterMap PyF.toQ)))

/-- `np.mean`: NaN on an empty array (with a runtime warning) and on any
array containing NaN; otherwise the arithmetic mean. -/
def pymean (l : List PyF) : PyF :=
  if l.isEmpty || l.any PyF.isNan then .nan
  else .fin (sumQ (l.filterMap PyF.toQ) / (l.length : ℚ))

/-- `np.ma.median` on a plain array: NaN when empty or when any entry is
NaN (numpy's median checks the largest partitioned element for NaN),
otherwise the usual middle-of-sorted-values. -/
def pymedian (l : List PyF) : PyF :=
  if l.isEmpty || l.any PyF.isNan then .nan
  else .fin (medianQ (l.filterMap PyF.toQ))

/-- `scipy.stats.mode(..., axis=None)` followed by taking the first modal
value: `IndexError` on an empty array (the returned mode array is empty),
NaN propagation otherwise, else the smallest most-frequent value. -/
def pymode (l : List PyF) : Except Err PyF :=
  if l.isEmpty then .error .indexError
  else if l.any PyF.isNan then .ok .nan
  else .ok (.fin (modeQ (l.filterMap PyF.toQ)))

/-- Population variance (`ddof = 0`), the square of `np.std`. -/
def varQ (l : List ℚ) : ℚ :=
  sumQ (l.map (fun x => (x - sumQ l / (l.length : ℚ)) ^ 2)) / (l.length : ℚ)

/-- `np.std` = sqrt of the population variance; `S` models the square
root (any faithful model has `S 0 = 0`). -/
def pystd (S : ℚ → ℚ) (l : List PyF) : PyF :=
  if l.isEmpty || l.any PyF.isNan then .nan
  else .fin (S (varQ (l.filterMap PyF.toQ)))

/-- `-np.log10`: NaN propagates; `np.log10` of a negative argument is NaN.
A zero argument would give `-log10 0 = +inf`, but in `significant_signal`
every exact zero has been replaced by `data_min ≠ 0` before the
transform, so that branch is unreachable there. -/
def neglog10 (L : ℚ → ℚ) : PyF → PyF
  | .nan => .nan
  | .fin q => if 0 < q then .fin (L q) else .nan

/- ---------------------------------------------------------------- -/
/- Path templates: Python `str.format(**record)`.                   -/
/- ---------------------------------------------------------------- -/

inductive TmplPart where
  | lit : String → TmplPart
  | field : String → TmplPart
deriving DecidableEq, Repr

abbrev Record := List (String × String)

/-- `data_path.format(**substitution)`: left-to-right substitution, a
`KeyError` at the first placeholder missing from the record. -/
def formatPath : List TmplPart → Record → Except Err String
  | [], _ => .ok ""
  | .lit s :: t, r => (formatPath t r).map (fun rest => s ++ rest)
  | .field k :: t, r =>
    match r.lookup k with
    | some v => (formatPath t r).map (fun rest => v ++ rest)
    | none => .error (.keyError k)

/-- The raw template text, placeholders kept verbatim (this is the string
the code uses as a path when formatting is skipped). -/
def templateText : List TmplPart → String
  | [] => ""
  | .lit s :: t => s ++ templateText t
  | .field k :: t => "\x7b" ++ k ++ "\x7d" ++ templateText t

/-- Ambient environment: path normalisation (`abspath ∘ expanduser`),
the filesystem (3-D and 4-D NIfTI contents by path), and the CPU count. -/
structure Env where
  norm : String → String
  fs : String → Option (List PyF)
  fs4 : String → Option (List (List PyF))
  cpuCount : ℕ

/-- Lines 40-42 / 138-141 of `snr.py`: `if substitution:` skips the
formatting step entirely for an empty record, then the (possibly
unformatted) string is made absolute. -/
def resolvePath (env : Env) (tpl : List TmplPart) (sub : Record) : Except Err String :=
  (if sub.isEmpty then .ok (templateText tpl) else formatPath tpl sub).map env.norm

def dropNan (l : List PyF) : List PyF := l.filter (fun x => !x.isNan)

/-- Effective voxel list of `np.ma.masked_array(data, mask=(mask < 0.5))`:
entries whose mask value is `< 0.5` are masked out and ignored by every
subsequent reduction (`nonzero`, `mean`, `ma.median`). -/
def maskFilter (data mask : List PyF) : List PyF :=
  ((data.zip mask).filter (fun dm => !(PyF.lt dm.2 (.fin (1 / 2))))).map Prod.fst

/-- Lines 47-52 of `snr.py`: with no mask path the data is untouched;
otherwise the mask is loaded (a missing mask file raises, it is outside
the `try`), applied, and NaN entries are dropped (`data[~np.isnan(data)]`). -/
def sigRetained (env : Env) (data : List PyF) (mask_path : String) : Except Err (List PyF) :=
  if mask_path = "" then .ok data
  else
    match env.fs (env.norm mask_path) with
    | none => .error (.fileNotFound (env.norm mask_path))
    | some mask =>
      if mask.length = data.length then .ok (dropNan (maskFilter data mask))
      else .error .shapeMismatch

/-- `significant_signal` (snr.py lines 14-62). -/
def significant_signal (L : ℚ → ℚ) (env : Env) (tpl : List TmplPart) (sub : Record)
    (mask_path : String) : Except Err (PyF × PyF) := do
  let p ← resolvePath env tpl sub
  match env.fs p with
  | none => return (.nan, .nan)
  | some data0 => do
    let data1 ← sigRetained env data0 mask_path
    let nonzero := data1.filter PyF.isNonzero
    let dmin0 ← pymin nonzero
    let dmin := dmin0.mul (.fin (99 / 100))
    let data2 := data1.map (fun x => if x.isZero then dmin else x)
    let data3 := data2.map (neglog10 L)
    return (pymean data3, pymedian data3)

/-- Order-preserving effectful map: the model of
`Parallel(...)(map(delayed(f), ...))`, which returns results in input
order and re-raises the first worker exception. -/
def mapE (f : α → Except ε β) : List α → Except ε (List β)
  | [] => .ok []
  | a :: t =>
    match f a with
    | .error e => .error e
    | .ok b =>
      match mapE f t with
      | .error e => .error e
      | .ok bs => .ok (b :: bs)

def metaFields : List String := ["subject", "session", "task", "acquisition"]

/-- Lines 103-107 of `snr.py`: `df[field] = [i[field] for i in substitutions]`
inside `try/except KeyError: pass` — the comprehension raises as soon as
one record lacks the key, so the column is added exactly when every
record has the key (vacuously when there are no records). -/
def sigMeta (subs : List Record) : List (String × List String) :=
  metaFields.filterMap (fun f =>
    if subs.all (fun s => (s.lookup f).isSome)
    then some (f, subs.map (fun s => (s.lookup f).getD ""))
    else none)

structure SigDF where
  mean : List PyF
  median : List PyF
  meta : List (String × List String)
deriving DecidableEq, Repr

def assembleSig (iterData : List (PyF × PyF)) (subs : List Record) : SigDF :=
  { mean := iterData.map Prod.fst
    median := iterData.map Prod.snd
    meta := sigMeta subs }

/-- Python `str.lower()`, character by character. -/
def strToLower (s : String) : String := ⟨s.data.map Char.toLower⟩

/-- Python `str.endswith(post)`. -/
def strEndsWith (s post : String) : Bool := List.isSuffixOf post.data s.data

/-- Lines 108-113 / 205-210 of `snr.py`: no save path means no write; a
path whose lower-cased absolute form ends in `.csv` is written
(`df.to_csv`); anything else raises `ValueError` before any write. -/
def saveCheck (env : Env) (save_as : String) : Except Err (Option String) :=
  if save_as = "" then .ok none
  else
    let p := env.norm save_as
    if strEndsWith (strToLower p) ".csv" then .ok (some p)
    else .error .valueError

/-- `iter_significant_signal` (snr.py lines 64-114); the returned
`Option String` is the path written by `to_csv`, if any. -/
def iter_significant_signal (L : ℚ → ℚ) (env : Env) (tpl : List TmplPart)
    (subs : List Record) (mask_path save_as : String) :
    Except Err (SigDF × Option String) := do
  let iterData ← mapE (fun s => significant_signal L env tpl s mask_path) subs
  let df := assembleSig iterData subs
  let w ← saveCheck env save_as
  return (df, w)

/-- Line 91 and line 197 of `snr.py`: `n_jobs = mp.cpu_count()-2`, with
no lower bound.  The worker count only affects scheduling, never the
values or order of the results, so it is not threaded through the
iteration functions above. -/
def n_jobs_default (cpuCount : ℕ) : ℤ := (cpuCount : ℤ) - 2

structure BaseDF where
  mean : List PyF
  median : List PyF
  mode : List PyF
  std : List PyF
  meta : List (String × String)
deriving DecidableEq, Repr

/-- One pass of the loop in `base_metrics` (lines 149-157): std, mean and
median never raise; `sps.mode(...)[0][0]` raises on an empty slice. -/
def baseRow (S : ℚ → ℚ) (vol : List PyF) : Except Err (PyF × PyF × PyF × PyF) := do
  let m ← pymode vol
  return (pymean vol, pymedian vol, m, pystd S vol)

/-- `base_metrics` (snr.py lines 116-171).  The load is NOT inside a
`try`: a missing file raises `FileNotFoundError` to the caller.  The
metadata assignment `df[field] = substitution[field]` broadcasts one
scalar per present key. -/
def base_metrics (S : ℚ → ℚ) (env : Env) (tpl : List TmplPart) (sub : Record) :
    Except Err BaseDF := do
  let p ← resolvePath env tpl sub
  match env.fs4 p with
  | none => .error (.fileNotFound p)
  | some data => do
    let rows ← mapE (baseRow S) data
    return { mean := rows.map (fun r => r.1)
             median := rows.map (fun r => r.2.1)
             mode := rows.map (fun r => r.2.2.1)
             std := rows.map (fun r => r.2.2.2)
             meta := metaFields.filterMap (fun f => (sub.lookup f).map (fun v => (f, v))) }

structure ConcatDF where
  mean : List PyF
  median : List PyF
  mode : List PyF
  std : List PyF
  meta : List (String × List (Option String))
deriving DecidableEq, Repr

/-- `pd.concat` column union on the metadata columns: a column appears
when any frame has it; frames lacking it contribute missing cells. -/
def concatMeta (dfs : List BaseDF) : List (String × List (Option String)) :=
  metaFields.filterMap (fun f =>
    if dfs.any (fun d => (d.meta.lookup f).isSome)
    then some (f, dfs.flatMap (fun d => List.replicate d.mean.length (d.meta.lookup f)))
    else none)

/-- `pd.concat` (line 203): raises `ValueError` on an empty list of
frames, otherwise stacks the rows. -/
def concatBase (dfs : List BaseDF) : Except Err ConcatDF :=
  if dfs.isEmpty then .error .valueError
  else .ok { mean := dfs.flatMap BaseDF.mean
             median := dfs.flatMap BaseDF.median
             mode := dfs.flatMap BaseDF.mode
             std := dfs.flatMap BaseDF.std
             meta := concatMeta dfs }

/-- `iter_base_metrics` (snr.py lines 173-211). -/
def iter_base_metrics (S : ℚ → ℚ) (env : Env) (tpl : List TmplPart)
    (subs : List Record) (save_as : String) : Except Err (ConcatDF × Option String) := do
  let dfs ← mapE (base_metrics S env tpl) subs
  let df ← concatBase dfs
  let w ← saveCheck env save_as
  return (df, w)

/- ---------------------------------------------------------------- -/
/- Small observers used in claim statements.                        -/
/- ---------------------------------------------------------------- -/

instance {ε α : Type _} [DecidableEq ε] [DecidableEq α] : DecidableEq (Except ε α) := fun x y =>
  match x, y with
  | .ok a, .ok b =>
    if h : a = b then isTrue (by rw [h]) else isFalse (fun hc => h (Except.ok.inj hc))
  | .error e, .error f =>
    if h : e = f then isTrue (by rw [h]) else isFalse (fun hc => h (Except.error.inj hc))
  | .ok _, .error _ => isFalse (fun hc => Except.noConfusion hc)
  | .error _, .ok _ => isFalse (fun hc => Except.noConfusion hc)

def okB : Except ε α → Bool
  | .ok _ => true
  | .error _ => false

def isKeyErr : Except Err α → Bool
  | .error (.keyError _) => true
  | _ => false

/-- First component of a successful significance result. -/
def okFst : Except Err (PyF × PyF) → Option PyF
  | .ok ab => some ab.1
  | .error _ => none

/-- True when both returned statistics are finite (non-NaN) numbers. -/
def okFinPair : Except Err (PyF × PyF) → Bool
  | .ok (.fin _, .fin _) => true
  | _ => false

/- ---------------------------------------------------------------- -/
/- Concrete fixtures used by witnesses and counterexamples.         -/
/- ---------------------------------------------------------------- -/

def fsEmptyEnv : Env :=
  { norm := id, fs := fun _ => none, fs4 := fun _ => none, cpuCount := 4 }

def zeroMapEnv : Env :=
  { norm := id, fs := fun p => if p = "d" then some [.fin 0, .fin 0] else none,
    fs4 := fun _ => none, cpuCount := 4 }

def constSeriesEnv : Env :=
  { norm := id, fs := fun _ => none,
    fs4 := fun p =>
      if p = "d" then some [List.replicate 1 (.fin 2), List.replicate 3 (.fin 5)] else none,
    cpuCount := 4 }

def oneVolEnv : Env :=
  { norm := id, fs := fun _ => none,
    fs4 := fun p => if p = "d" then some [[.fin 1]] else none, cpuCount := 4 }

def nanMapEnv : Env :=
  { norm := id,
    fs := fun p =>
      if p = "d" then some [.fin 1, .nan, .fin 2]
      else if p = "m" then some [.fin 1, .fin 1, .fin 1] else none,
    fs4 := fun _ => none, cpuCount := 4 }

/- ---------------------------------------------------------------- -/
/- General lemmas about the effectful map and Except.               -/
/- ---------------------------------------------------------------- -/

theorem okB_eq_true_iff {ε α : Type _} {x : Except ε α} : okB x = true ↔ ∃ b, x = .ok b := by
  cases x <;> simp [okB]

theorem okB_eq_false_iff {ε α : Type _} {x : Except ε α} : okB x = false ↔ ∃ e, x = .error e := by
  cases x <;> simp [okB]

theorem mapE_ok_length {α β ε : Type _} {f : α → Except ε β} {l : List α} {bs : List β}
    (h : mapE f l = .ok bs) : bs.length = l.length := by
  induction l generalizing bs with
  | nil =>
    simp only [mapE] at h
    cases h
    rfl
  | cons a t ih =>
    simp only [mapE] at h
    cases hfa : f a with
    | error e => rw [hfa] at h; cases h
    | ok b =>
      rw [hfa] at h
      cases hmt : mapE f t with
      | error e => rw [hmt] at h; cases h
      | ok bs2 =>
        rw [hmt] at h
        cases h
        simp [ih hmt]

theorem mapE_ok_get? {α β ε : Type _} {f : α → Except ε β} {l : List α} {bs : List β}
    (h : mapE f l = .ok bs) (i : ℕ) (a : α) (ha : l.get? i = some a) :
    ∃ b, bs.get? i = some b ∧ f a = .ok b := by
  induction l generalizing bs i with
  | nil => simp at ha
  | cons x t ih =>
    simp only [mapE] at h
    cases hfa : f x with
    | error e => rw [hfa] at h; cases h
    | ok b =>
      rw [hfa] at h
      cases hmt : mapE f t with
      | error e => rw [hmt] at h; cases h
      | ok bs2 =>
        rw [hmt] at h
        cases h
        cases i with
        | zero =>
          simp at ha
          subst ha
          exact ⟨b, by simp, hfa⟩
        | succ j =>
          simp only [List.get?_cons_succ] at ha
          obtain ⟨b2, hb2, hfb2⟩ := ih hmt j ha
          exact ⟨b2, by simpa using hb2, hfb2⟩

theorem mapE_not_ok_of_mem {α β ε : Type _} {f : α → Except ε β} {l : List α} {a : α}
    (ha : a ∈ l) (hfa : okB (f a) = false) : okB (mapE f l) = false := by
  induction l with
  | nil => cases ha
  | cons x t ih =>
    cases ha with
    | head =>
      obtain ⟨e, he⟩ := okB_eq_false_iff.mp hfa
      simp [mapE, he, okB]
    | tail _ hmem =>
      cases hfx : f x with
      | error e => simp [mapE, hfx, okB]
      | ok b =>
        obtain ⟨e, he⟩ := okB_eq_false_iff.mp (ih hmem)
        simp [mapE, hfx, he, okB]

theorem mapE_ok_of_forall {α β ε : Type _} {f : α → Except ε β} {l : List α}
    (h : ∀ a ∈ l, okB (f a) = true) : okB (mapE f l) = true := by
  induction l with
  | nil => simp [mapE, okB]
  | cons x t ih =>
    obtain ⟨b, hb⟩ := okB_eq_true_iff.mp (h x (List.mem_cons_self x t))
    obtain ⟨bs, hbs⟩ := okB_eq_true_iff.mp (ih (fun a hm => h a (List.mem_cons_of_mem x hm)))
    simp [mapE, hb, hbs, okB]

theorem ebind_ok {ε α β : Type _} (a : α) (k : α → Except ε β) :
    (Except.ok a >>= k) = k a := rfl

theorem ebind_err {ε α β : Type _} (e : ε) (k : α → Except ε β) :
    ((Except.error e : Except ε α) >>= k) = .error e := rfl

theorem iter_sig_ok_inv {L : ℚ → ℚ} {env : Env} {tpl : List TmplPart} {subs : List Record}
    {mp sa : String} {df : SigDF} {w : Option String}
    (h : iter_significant_signal L env tpl subs mp sa = .ok (df, w)) :
    ∃ iterData, mapE (fun s => significant_signal L env tpl s mp) subs = .ok iterData ∧
      df = assembleSig iterData subs ∧ saveCheck env sa = .ok w := by
  unfold iter_significant_signal at h
  cases hm : mapE (fun s => significant_signal L env tpl s mp) subs with
  | error e => rw [hm, ebind_err] at h; cases h
  | ok iterData =>
    rw [hm, ebind_ok] at h
    cases hs : saveCheck env sa with
    | error e => rw [hs, ebind_err] at h; cases h
    | ok w2 =>
      rw [hs, ebind_ok] at h
      cases h
      exact ⟨iterData, rfl, rfl, rfl⟩

theorem significant_signal_missing (L : ℚ → ℚ) (env : Env) (tpl : List TmplPart)
    (sub : Record) (mp p : String) (hp : resolvePath env tpl sub = .ok p)
    (hd : env.fs p = none) :
    significant_signal L env tpl sub mp = .ok (.nan, .nan) := by
  unfold significant_signal
  rw [hp, ebind_ok, hd]
  rfl

/- ---------------------------------------------------------------- -/
/- Claim C1                                                         -/
/- ---------------------------------------------------------------- -/

/-- Claim C1: in mode (a), a record whose resolved path does not exist on
the filesystem contributes exactly the pair (NaN, NaN), and whenever the
batch returns a table it has exactly one row per input record, with row i
corresponding to substitution record i. -/
theorem C1_missing_file_nan_row_and_alignment
    (L : ℚ → ℚ) (env : Env) (tpl : List TmplPart) (subs : List Record)
    (mp sa : String) (df : SigDF) (w : Option String)
    (h : iter_significant_signal L env tpl subs mp sa = .ok (df, w)) :
    df.mean.length = subs.length ∧ df.median.length = subs.length ∧
    ∀ i sub p, subs.get? i = some sub → resolvePath env tpl sub = .ok p →
      env.fs p = none →
      df.mean.get? i = some .nan ∧ df.median.get? i = some .nan := by
  obtain ⟨iterData, hm, hdf, hw⟩ := iter_sig_ok_inv h
  subst hdf
  have hlen := mapE_ok_length hm
  refine ⟨by simp [assembleSig, hlen], by simp [assembleSig, hlen], ?_⟩
  intro i sub p hi hp hd
  obtain ⟨b, hb, hfb⟩ := mapE_ok_get? hm i sub hi
  have hfb2 : significant_signal L env tpl sub mp = .ok b := hfb
  rw [significant_signal_missing L env tpl sub mp p hp hd] at hfb2
  injection hfb2 with hbv
  subst hbv
  constructor
  · rw [show (assembleSig iterData subs).mean = iterData.map Prod.fst from rfl,
      List.get?_map, hb]
    rfl
  · rw [show (assembleSig iterData subs).median = iterData.map Prod.snd from rfl,
      List.get?_map, hb]
    rfl

/-- Claim C1 witness: two records, both resolving to nonexistent files;
the batch succeeds, returns two rows in input order, each (NaN, NaN). -/
theorem C1_missing_file_nan_row_and_alignment_witness :
    iter_significant_signal (fun q => q) fsEmptyEnv [.field "subject"]
      [[("subject", "a")], [("subject", "b")]] "" "" =
      .ok ({ mean := [.nan, .nan], median := [.nan, .nan],
             meta := [("subject", ["a", "b"])] }, none) ∧
    ([.nan, .nan] : List PyF).length = 2 ∧
    ([.nan, .nan] : List PyF).get? 1 = some .nan := by
  have h : iter_significant_signal (fun q => q) fsEmptyEnv [.field "subject"]
      [[("subject", "a")], [("subject", "b")]] "" "" =
      .ok ({ mean := [.nan, .nan], median := [.nan, .nan],
             meta := [("subject", ["a", "b"])] }, none) := by decide
  have hc := C1_missing_file_nan_row_and_alignment (fun q => q) fsEmptyEnv [.field "subject"]
      [[("subject", "a")], [("subject", "b")]] "" ""
      { mean := [.nan, .nan], median := [.nan, .nan], meta := [("subject", ["a", "b"])] } none h
  exact ⟨h, hc.1, (hc.2.2 1 [("subject", "b")] "b" rfl rfl rfl).1⟩

/- ---------------------------------------------------------------- -/
/- Claim C3                                                         -/
/- ---------------------------------------------------------------- -/

theorem significant_signal_loaded (L : ℚ → ℚ) (env : Env) (tpl : List TmplPart)
    (sub : Record) (mp p : String) (data : List PyF)
    (hp : resolvePath env tpl sub = .ok p) (hd : env.fs p = some data) :
    significant_signal L env tpl sub mp = do
      let data1 ← sigRetained env data mp
      let dmin0 ← pymin (data1.filter PyF.isNonzero)
      let dmin := dmin0.mul (.fin (99 / 100))
      let data3 := (data1.map (fun x => if x.isZero then dmin else x)).map (neglog10 L)
      return (pymean data3, pymedian data3) := by
  unfold significant_signal
  rw [hp, ebind_ok, hd]

/-- Claim C3 counterexample: an all-zero map at an existing path makes the
mode-(a) statistic raise `ValueError` (`np.min` of the empty `nonzero`
array); it does not recover to the (NaN, NaN) pair. -/
theorem C3_all_zero_counterexample :
    significant_signal (fun q => q) zeroMapEnv [.lit "d"] [] "" = .error .valueError ∧
    ¬ significant_signal (fun q => q) zeroMapEnv [.lit "d"] [] "" = .ok (.nan, .nan) := by
  constructor
  · decide
  · decide

/-- Claim C3 (amended): when the retained voxel list has no nonzero entry
(for example an all-zero or fully masked array), `significant_signal`
fails with `ValueError` — the error from `np.min` of an empty array —
rather than recovering to the NaN pair; only a missing file recovers. -/
theorem C3_empty_nonzero_raises_valueerror
    (L : ℚ → ℚ) (env : Env) (tpl : List TmplPart) (sub : Record) (mp p : String)
    (data ret : List PyF)
    (hp : resolvePath env tpl sub = .ok p) (hd : env.fs p = some data)
    (hret : sigRetained env data mp = .ok ret)
    (hnz : ret.filter PyF.isNonzero = []) :
    significant_signal L env tpl sub mp = .error .valueError := by
  rw [significant_signal_loaded L env tpl sub mp p data hp hd, hret, ebind_ok, hnz]
  rfl

/-- Claim C3 witness: the amended statement applied to the concrete
all-zero two-voxel map. -/
theorem C3_empty_nonzero_raises_valueerror_witness :
    zeroMapEnv.fs "d" = some [.fin 0, .fin 0] ∧
    ([.fin 0, .fin 0] : List PyF).filter PyF.isNonzero = [] ∧
    significant_signal (fun q => q) zeroMapEnv [.lit "d"] [] "" = .error .valueError := by
  refine ⟨rfl, by decide, ?_⟩
  exact C3_empty_nonzero_raises_valueerror (fun q => q) zeroMapEnv [.lit "d"] [] "" "d"
    [.fin 0, .fin 0] [.fin 0, .fin 0] rfl rfl rfl (by decide)

/- ---------------------------------------------------------------- -/
/- Claim C5                                                         -/
/- ---------------------------------------------------------------- -/

theorem base_metrics_missing (S : ℚ → ℚ) (env : Env) (tpl : List TmplPart)
    (sub : Record) (p : String)
    (hp : resolvePath env tpl sub = .ok p) (hd : env.fs4 p = none) :
    base_metrics S env tpl sub = .error (.fileNotFound p) := by
  unfold base_metrics
  rw [hp, ebind_ok, hd]

/-- Claim C5: in mode (b), a record whose resolved path does not exist
makes the whole batch call fail (the `FileNotFoundError` from the load
propagates); there is no per-unit recovery to a NaN row. -/
theorem C5_mode_b_missing_file_fails_batch
    (S : ℚ → ℚ) (env : Env) (tpl : List TmplPart) (subs : List Record) (sa : String)
    (i : ℕ) (sub : Record) (p : String)
    (hi : subs.get? i = some sub) (hp : resolvePath env tpl sub = .ok p)
    (hd : env.fs4 p = none) :
    okB (iter_base_metrics S env tpl subs sa) = false := by
  have hmem : sub ∈ subs := List.get?_mem hi
  have hunit : okB (base_metrics S env tpl sub) = false := by
    rw [base_metrics_missing S env tpl sub p hp hd]
    rfl
  obtain ⟨e, he⟩ := okB_eq_false_iff.mp (mapE_not_ok_of_mem hmem hunit)
  unfold iter_base_metrics
  rw [he, ebind_err]
  rfl

/-- Claim C5 witness: one record pointing at a nonexistent 4-D file; the
batch call fails. -/
theorem C5_mode_b_missing_file_fails_batch_witness :
    ([[("a", "b")]] : List Record).get? 0 = some [("a", "b")] ∧
    fsEmptyEnv.fs4 "d" = none ∧
    okB (iter_base_metrics (fun q => q) fsEmptyEnv [.lit "d"] [[("a", "b")]] "") = false :=
  ⟨rfl, rfl,
    C5_mode_b_missing_file_fails_batch (fun q => q) fsEmptyEnv [.lit "d"] [[("a", "b")]] ""
      0 [("a", "b")] "d" rfl rfl rfl⟩

/- ---------------------------------------------------------------- -/
/- Claim C6                                                         -/
/- ---------------------------------------------------------------- -/

theorem emap_err {ε α β : Type _} (f : α → β) (e : ε) :
    (Except.error e : Except ε α).map f = .error e := rfl

theorem emap_ok {ε α β : Type _} (f : α → β) (a : α) :
    (Except.ok a : Except ε α).map f = .ok (f a) := rfl

theorem formatPath_keyError (tpl : List TmplPart) (r : Record) (k : String)
    (hk : TmplPart.field k ∈ tpl) (hnone : r.lookup k = none) :
    ∃ k2, formatPath tpl r = .error (.keyError k2) := by
  induction tpl with
  | nil => cases hk
  | cons h t ih =>
    cases h with
    | lit s =>
      have hk2 : TmplPart.field k ∈ t := by
        cases hk with
        | tail _ hmem => exact hmem
      obtain ⟨k2, he⟩ := ih hk2
      exact ⟨k2, by simp [formatPath, he, emap_err]⟩
    | field k0 =>
      cases hl : r.lookup k0 with
      | none => exact ⟨k0, by simp [formatPath, hl]⟩
      | some v =>
        have hk2 : TmplPart.field k ∈ t := by
          cases hk with
          | head =>
            rw [hl] at hnone
            cases hnone
          | tail _ hmem => exact hmem
        obtain ⟨k2, he⟩ := ih hk2
        exact ⟨k2, by simp [formatPath, hl, he, emap_err]⟩

theorem resolvePath_keyError (env : Env) (tpl : List TmplPart) (sub : Record) (k : String)
    (hne : sub ≠ []) (hk : TmplPart.field k ∈ tpl) (hnone : sub.lookup k = none) :
    ∃ k2, resolvePath env tpl sub = .error (.keyError k2) := by
  obtain ⟨k2, he⟩ := formatPath_keyError tpl sub k hk hnone
  have hemp : sub.isEmpty = false := by
    cases sub with
    | nil => exact absurd rfl hne
    | cons a t => rfl
  exact ⟨k2, by simp [resolvePath, hemp, he, emap_err]⟩

theorem significant_signal_resolveErr (L : ℚ → ℚ) (env : Env) (tpl : List TmplPart)
    (sub : Record) (mp : String) (e : Err)
    (he : resolvePath env tpl sub = .error e) :
    significant_signal L env tpl sub mp = .error e := by
  unfold significant_signal
  rw [he, ebind_err]

theorem base_metrics_resolveErr (S : ℚ → ℚ) (env : Env) (tpl : List TmplPart)
    (sub : Record) (e : Err)
    (he : resolvePath env tpl sub = .error e) :
    base_metrics S env tpl sub = .error e := by
  unfold base_metrics
  rw [he, ebind_err]

/-- Claim C6 counterexample: the empty substitution record skips
formatting entirely (`if substitution:` is false), so a template that
does reference a placeholder resolves to the raw template text and no
`KeyError` is surfaced — mode (a) then quietly returns (NaN, NaN). -/
theorem C6_empty_record_counterexample :
    resolvePath fsEmptyEnv [.field "subject"] [] = .ok "\x7bsubject\x7d" ∧
    significant_signal (fun q => q) fsEmptyEnv [.field "subject"] [] "" = .ok (.nan, .nan) ∧
    isKeyErr (significant_signal (fun q => q) fsEmptyEnv [.field "subject"] [] "") = false := by
  refine ⟨by decide, by decide, by decide⟩

/-- Claim C6 (amended): for every NONEMPTY record lacking a placeholder
key referenced by the template, path resolution fails with a `KeyError`
that propagates out of both `significant_signal` and `base_metrics`; the
empty record instead bypasses substitution and the raw template text is
used as the path. -/
theorem C6_missing_key_keyerror_nonempty_record
    (L S : ℚ → ℚ) (env : Env) (tpl : List TmplPart) (sub : Record) (mp k : String)
    (hne : sub ≠ []) (hk : TmplPart.field k ∈ tpl) (hnone : sub.lookup k = none) :
    (isKeyErr (resolvePath env tpl sub) = true ∧
     isKeyErr (significant_signal L env tpl sub mp) = true ∧
     isKeyErr (base_metrics S env tpl sub) = true) ∧
    resolvePath env tpl [] = .ok (env.norm (templateText tpl)) := by
  obtain ⟨k2, he⟩ := resolvePath_keyError env tpl sub k hne hk hnone
  refine ⟨⟨?_, ?_, ?_⟩, ?_⟩
  · rw [he]; rfl
  · rw [significant_signal_resolveErr L env tpl sub mp (.keyError k2) he]; rfl
  · rw [base_metrics_resolveErr S env tpl sub (.keyError k2) he]; rfl
  · rfl

/-- Claim C6 witness: a record that has a key, but not the one the
template references, raises `KeyError` through both entry points. -/
theorem C6_missing_key_keyerror_nonempty_record_witness :
    ([("session", "x")] : Record) ≠ [] ∧
    TmplPart.field "subject" ∈ [TmplPart.field "subject"] ∧
    ([("session", "x")] : Record).lookup "subject" = none ∧
    isKeyErr (significant_signal (fun q => q) fsEmptyEnv [.field "subject"]
      [("session", "x")] "") = true ∧
    isKeyErr (base_metrics (fun q => q) fsEmptyEnv [.field "subject"]
      [("session", "x")]) = true := by
  have h := C6_missing_key_keyerror_nonempty_record (fun q => q) (fun q => q) fsEmptyEnv
    [.field "subject"] [("session", "x")] "" "subject"
    (by decide) (List.mem_singleton.mpr rfl) (by decide)
  exact ⟨by decide, List.mem_singleton.mpr rfl, by decide, h.1.2.1, h.1.2.2⟩

/- ---------------------------------------------------------------- -/
/- Claim C8                                                         -/
/- ---------------------------------------------------------------- -/

/-- Claim C8 counterexample: with 2 available cores the default worker
count is 0, not the floor of 1 the claim asserts. -/
theorem C8_no_floor_counterexample :
    n_jobs_default 2 = 0 ∧ ¬ n_jobs_default 2 = max ((2 : ℤ) - 2) 1 := by
  constructor
  · decide
  · decide

/-- Claim C8 (amended): the default worker count is exactly
`cpu_count() - 2` with no floor: it is at least 1 only when more than 2
cores are available, and drops to 0 or below for 2 or fewer cores. -/
theorem C8_n_jobs_exactly_cpu_minus_two (c : ℕ) :
    n_jobs_default c = (c : ℤ) - 2 ∧
    (c ≤ 2 → n_jobs_default c ≤ 0) ∧
    (3 ≤ c → 1 ≤ n_jobs_default c) := by
  refine ⟨rfl, ?_, ?_⟩
  · intro hc
    simp only [n_jobs_default]
    omega
  · intro hc
    simp only [n_jobs_default]
    omega

/-- Claim C8 witness: the amended statement evaluated at 2 and 4 cores. -/
theorem C8_n_jobs_exactly_cpu_minus_two_witness :
    n_jobs_default 2 ≤ 0 ∧ 1 ≤ n_jobs_default 4 :=
  ⟨(C8_n_jobs_exactly_cpu_minus_two 2).2.1 (by decide),
   (C8_n_jobs_exactly_cpu_minus_two 4).2.2 (by decide)⟩

/- ---------------------------------------------------------------- -/
/- Claim C2                                                         -/
/- ---------------------------------------------------------------- -/

theorem lookup_filterMap_if_not_mem {β : Type _} (c : String → Bool) (mk : String → β)
    (keys : List String) (f0 : String) (hf : f0 ∉ keys) :
    (keys.filterMap (fun f => if c f then some (f, mk f) else none)).lookup f0 = none := by
  induction keys with
  | nil => rfl
  | cons k t ih =>
    have hf0k : (f0 == k) = false :=
      beq_eq_false_iff_ne.mpr (fun h => hf (h ▸ List.mem_cons_self k t))
    have hft : f0 ∉ t := fun h => hf (List.mem_cons_of_mem k h)
    by_cases hc : c k
    · simp [List.filterMap_cons, hc, List.lookup, hf0k, ih hft]
    · simp [List.filterMap_cons, hc, ih hft]

theorem lookup_filterMap_if {β : Type _} (c : String → Bool) (mk : String → β)
    (keys : List String) (hnd : keys.Nodup) (f0 : String) (hf : f0 ∈ keys) :
    (keys.filterMap (fun f => if c f then some (f, mk f) else none)).lookup f0 =
      if c f0 then some (mk f0) else none := by
  induction keys with
  | nil => cases hf
  | cons k t ih =>
    obtain ⟨hknt, hndt⟩ := List.nodup_cons.mp hnd
    by_cases hf0k : f0 = k
    · subst hf0k
      by_cases hc : c f0
      · simp [List.filterMap_cons, hc, List.lookup]
      · simp [List.filterMap_cons, hc,
          lookup_filterMap_if_not_mem c mk t f0 hknt]
    · have hft : f0 ∈ t := by
        cases hf with
        | head => exact absurd rfl hf0k
        | tail _ hmem => exact hmem
      have hbeq : (f0 == k) = false := beq_eq_false_iff_ne.mpr hf0k
      by_cases hc : c k
      · simp [List.filterMap_cons, hc, List.lookup, hbeq, ih hndt hft]
      · simp [List.filterMap_cons, hc, ih hndt hft]

theorem sigMeta_lookup (subs : List Record) (f0 : String) (hf : f0 ∈ metaFields) :
    (sigMeta subs).lookup f0 =
      if subs.all (fun s => (s.lookup f0).isSome)
      then some (subs.map (fun s => (s.lookup f0).getD "")) else none := by
  have hnd : metaFields.Nodup := by decide
  unfold sigMeta
  exact lookup_filterMap_if (fun f => subs.all (fun s => (s.lookup f).isSome))
    (fun f => subs.map (fun s => (s.lookup f).getD "")) metaFields hnd f0 hf

/-- Claim C2 counterexample: with two records, the first carrying
`subject` and the second not, the `subject` column is dropped from the
table entirely — not kept with a missing cell for the second row. -/
theorem C2_partial_key_drops_column_counterexample :
    iter_significant_signal (fun q => q) fsEmptyEnv []
      [[("subject", "a")], [("session", "b")]] "" "" =
      .ok ({ mean := [.nan, .nan], median := [.nan, .nan], meta := [] }, none) ∧
    (([("subject", "a")] : Record).lookup "subject").isSome = true ∧
    ({ mean := [.nan, .nan], median := [.nan, .nan],
       meta := ([] : List (String × List String)) } : SigDF).meta.lookup "subject" = none := by
  refine ⟨by decide, by decide, by decide⟩

/-- Claim C2 (amended): for each candidate key (subject, session, task,
acquisition), the assembler adds the metadata column iff EVERY record
has the key (vacuously when the record list is empty); a single record
lacking the key causes the whole column to be dropped. -/
theorem C2_meta_column_iff_all_records
    (L : ℚ → ℚ) (env : Env) (tpl : List TmplPart) (subs : List Record)
    (mp sa : String) (df : SigDF) (w : Option String) (f0 : String)
    (h : iter_significant_signal L env tpl subs mp sa = .ok (df, w))
    (hf : f0 ∈ metaFields) :
    ((∀ s ∈ subs, (s.lookup f0).isSome = true) →
      df.meta.lookup f0 = some (subs.map (fun s => (s.lookup f0).getD ""))) ∧
    ((∃ s ∈ subs, (s.lookup f0).isSome = false) → df.meta.lookup f0 = none) := by
  obtain ⟨iterData, hm, hdf, hw⟩ := iter_sig_ok_inv h
  subst hdf
  have hml : (assembleSig iterData subs).meta = sigMeta subs := rfl
  rw [hml, sigMeta_lookup subs f0 hf]
  constructor
  · intro hall
    rw [if_pos (List.all_eq_true.mpr hall)]
  · rintro ⟨s, hs, hfalse⟩
    have hnall : ¬ subs.all (fun s => (s.lookup f0).isSome) = true := by
      intro hall
      rw [List.all_eq_true.mp hall s hs] at hfalse
      cases hfalse
    rw [if_neg hnall]

/-- Claim C2 witness: `subject` is in every record and its column is
kept; `task` is only in the second record and its column is dropped. -/
theorem C2_meta_column_iff_all_records_witness :
    iter_significant_signal (fun q => q) fsEmptyEnv []
      [[("subject", "a")], [("subject", "b"), ("task", "t")]] "" "" =
      .ok ({ mean := [.nan, .nan], median := [.nan, .nan],
             meta := [("subject", ["a", "b"])] }, none) ∧
    ({ mean := [.nan, .nan], median := [.nan, .nan],
       meta := [("subject", ["a", "b"])] } : SigDF).meta.lookup "subject" =
      some ["a", "b"] ∧
    ({ mean := [.nan, .nan], median := [.nan, .nan],
       meta := [("subject", ["a", "b"])] } : SigDF).meta.lookup "task" = none := by
  have h : iter_significant_signal (fun q => q) fsEmptyEnv []
      [[("subject", "a")], [("subject", "b"), ("task", "t")]] "" "" =
      .ok ({ mean := [.nan, .nan], median := [.nan, .nan],
             meta := [("subject", ["a", "b"])] }, none) := by decide
  have h1 := C2_meta_column_iff_all_records (fun q => q) fsEmptyEnv []
    [[("subject", "a")], [("subject", "b"), ("task", "t")]] "" ""
    { mean := [.nan, .nan], median := [.nan, .nan], meta := [("subject", ["a", "b"])] }
    none "subject" h (by decide)
  have h2 := C2_meta_column_iff_all_records (fun q => q) fsEmptyEnv []
    [[("subject", "a")], [("subject", "b"), ("task", "t")]] "" ""
    { mean := [.nan, .nan], median := [.nan, .nan], meta := [("subject", ["a", "b"])] }
    none "task" h (by decide)
  exact ⟨h, h1.1 (by decide), h2.2 (by decide)⟩

/- ---------------------------------------------------------------- -/
/- Claims C10 and C7                                                -/
/- ---------------------------------------------------------------- -/

/-- Claim C10: in `iter_significant_signal` the save-path extension check
is case-insensitive: once the statistics phase has succeeded, the table is
written exactly when the lower-cased normalised path ends in `.csv`, and
`ValueError` is raised exactly when it does not. -/
theorem C10_save_extension_case_insensitive
    (L : ℚ → ℚ) (env : Env) (tpl : List TmplPart) (subs : List Record)
    (mp sa : String) (rs : List (PyF × PyF))
    (hm : mapE (fun s => significant_signal L env tpl s mp) subs = .ok rs)
    (hsa : sa ≠ "") :
    (strEndsWith (strToLower (env.norm sa)) ".csv" = true →
      iter_significant_signal L env tpl subs mp sa =
        .ok (assembleSig rs subs, some (env.norm sa))) ∧
    (strEndsWith (strToLower (env.norm sa)) ".csv" = false →
      iter_significant_signal L env tpl subs mp sa = .error .valueError) := by
  constructor
  · intro hcsv
    unfold iter_significant_signal
    rw [hm, ebind_ok]
    simp only [saveCheck, hsa, if_false, ite_false, if_neg, hcsv]
    simp [hsa, hcsv, ebind_ok]
  · intro hcsv
    unfold iter_significant_signal
    rw [hm, ebind_ok]
    simp [saveCheck, hsa, hcsv, ebind_err]

/-- Claim C10 witness: `OUT.CSV` is accepted (its lower-casing ends in
`.csv` although the raw path does not), while `out.txt` raises. -/
theorem C10_save_extension_case_insensitive_witness :
    strEndsWith (strToLower "OUT.CSV") ".csv" = true ∧
    strEndsWith "OUT.CSV" ".csv" = false ∧
    iter_significant_signal (fun q => q) fsEmptyEnv [] [] "" "OUT.CSV" =
      .ok (assembleSig [] [], some "OUT.CSV") ∧
    iter_significant_signal (fun q => q) fsEmptyEnv [] [] "" "out.txt" =
      .error .valueError := by
  refine ⟨by decide, by decide, ?_, ?_⟩
  · exact (C10_save_extension_case_insensitive (fun q => q) fsEmptyEnv [] [] "" "OUT.CSV"
      [] rfl (by decide)).1 (by decide)
  · exact (C10_save_extension_case_insensitive (fun q => q) fsEmptyEnv [] [] "" "out.txt"
      [] rfl (by decide)).2 (by decide)

/-- Claim C7 counterexample: a successful batch saved to `OUT.CSV` — an
extension other than the literal `.csv` — is written rather than
rejected, because the check lower-cases the path first. -/
theorem C7_upper_csv_written_counterexample :
    iter_base_metrics (fun q => q) oneVolEnv [.lit "d"] [[("subject", "x")]] "OUT.CSV" =
      .ok ({ mean := [.fin 1], median := [.fin 1], mode := [.fin 1], std := [.fin 0],
             meta := [("subject", [some "x"])] }, some "OUT.CSV") ∧
    strEndsWith "OUT.CSV" ".csv" = false := by
  refine ⟨by decide, by decide⟩

/-- Claim C7 (amended): given a save path, the table is persisted exactly
when the lower-cased normalised path ends in `.csv`; for any other path
the call raises `ValueError` before any write happens (the error return
carries no write event). -/
theorem C7_save_requires_csv_extension
    (S : ℚ → ℚ) (env : Env) (tpl : List TmplPart) (subs : List Record) (sa : String)
    (dfs : List BaseDF) (cdf : ConcatDF)
    (hm : mapE (base_metrics S env tpl) subs = .ok dfs)
    (hc : concatBase dfs = .ok cdf)
    (hsa : sa ≠ "") :
    (strEndsWith (strToLower (env.norm sa)) ".csv" = true →
      iter_base_metrics S env tpl subs sa = .ok (cdf, some (env.norm sa))) ∧
    (strEndsWith (strToLower (env.norm sa)) ".csv" = false →
      iter_base_metrics S env tpl subs sa = .error .valueError) := by
  constructor
  · intro hcsv
    unfold iter_base_metrics
    rw [hm, ebind_ok, hc, ebind_ok]
    simp [saveCheck, hsa, hcsv, ebind_ok]
  · intro hcsv
    unfold iter_base_metrics
    rw [hm, ebind_ok, hc, ebind_ok]
    simp [saveCheck, hsa, hcsv, ebind_err]

/-- Claim C7 witness: the amended statement at a concrete one-volume
batch — `o.csv` is written, `o.txt` raises `ValueError`. -/
theorem C7_save_requires_csv_extension_witness :
    iter_base_metrics (fun q => q) oneVolEnv [.lit "d"] [[("subject", "x")]] "o.csv" =
      .ok ({ mean := [.fin 1], median := [.fin 1], mode := [.fin 1], std := [.fin 0],
             meta := [("subject", [some "x"])] }, some "o.csv") ∧
    iter_base_metrics (fun q => q) oneVolEnv [.lit "d"] [[("subject", "x")]] "o.txt" =
      .error .valueError := by
  constructor
  · exact (C7_save_requires_csv_extension (fun q => q) oneVolEnv [.lit "d"]
      [[("subject", "x")]] "o.csv"
      [{ mean := [.fin 1], median := [.fin 1], mode := [.fin 1], std := [.fin 0],
         meta := [("subject", "x")] }]
      { mean := [.fin 1], median := [.fin 1], mode := [.fin 1], std := [.fin 0],
        meta := [("subject", [some "x"])] }
      (by decide) (by decide) (by decide)).1 (by decide)
  · exact (C7_save_requires_csv_extension (fun q => q) oneVolEnv [.lit "d"]
      [[("subject", "x")]] "o.txt"
      [{ mean := [.fin 1], median := [.fin 1], mode := [.fin 1], std := [.fin 0],
         meta := [("subject", "x")] }]
      { mean := [.fin 1], median := [.fin 1], mode := [.fin 1], std := [.fin 0],
        meta := [("subject", [some "x"])] }
      (by decide) (by decide) (by decide)).2 (by decide)

/- ---------------------------------------------------------------- -/
/- Claim C4                                                         -/
/- ---------------------------------------------------------------- -/

theorem filterMap_toQ_replicate (n : ℕ) (c : ℚ) :
    List.filterMap PyF.toQ (List.replicate n (.fin c)) = List.replicate n c := by
  simp [List.filterMap_replicate, PyF.toQ]

theorem any_isNan_replicate (n : ℕ) (c : ℚ) :
    (List.replicate n (PyF.fin c)).any PyF.isNan = false := by
  induction n with
  | zero => rfl
  | succ m ih => simp [List.replicate, PyF.isNan, ih]

theorem sumQ_replicate (n : ℕ) (c : ℚ) : sumQ (List.replicate n c) = (n : ℚ) * c := by
  induction n with
  | zero => simp [List.replicate, sumQ]
  | succ m ih =>
    simp only [List.replicate, sumQ, ih]
    push_cast
    ring

theorem insertQ_replicate (n : ℕ) (c : ℚ) :
    insertQ c (List.replicate n c) = List.replicate (n + 1) c := by
  cases n with
  | zero => rfl
  | succ m => simp [List.replicate, insertQ]

theorem sortQ_replicate (n : ℕ) (c : ℚ) :
    sortQ (List.replicate n c) = List.replicate n c := by
  induction n with
  | zero => rfl
  | succ m ih =>
    show insertQ c (sortQ (List.replicate m c)) = _
    rw [ih, insertQ_replicate]

theorem getD_replicate_of_lt (n i : ℕ) (c : ℚ) (h : i < n) :
    (List.replicate n c).getD i 0 = c := by
  simp [List.getD_eq_getElem?_getD, List.getElem?_replicate, h]

theorem medianQ_replicate (n : ℕ) (c : ℚ) : medianQ (List.replicate (n + 1) c) = c := by
  unfold medianQ
  rw [sortQ_replicate, List.length_replicate]
  by_cases hodd : (n + 1) % 2 = 1
  · rw [if_pos hodd, getD_replicate_of_lt _ _ _ (by omega)]
  · rw [if_neg hodd, getD_replicate_of_lt _ _ _ (by omega),
      getD_replicate_of_lt _ _ _ (by omega)]
    ring

theorem countQ_pos_self (l : List ℚ) (c : ℚ) (h : c ∈ l) : 0 < countQ l c := by
  unfold countQ
  rw [List.length_pos]
  intro hemp
  have : c ∈ l.filter (fun x => x == c) := List.mem_filter.mpr ⟨h, by simp⟩
  rw [hemp] at this
  cases this

theorem modeBest_const (l : List ℚ) (c : ℚ) (n : ℕ) :
    modeBest l c (List.replicate n c) = c := by
  induction n with
  | zero => rfl
  | succ m ih =>
    show modeBest l c (c :: List.replicate m c) = c
    unfold modeBest
    rw [if_neg (by simp [lt_irrefl])]
    exact ih

theorem modeQ_replicate (n : ℕ) (c : ℚ) : modeQ (List.replicate (n + 1) c) = c := by
  show modeBest (c :: List.replicate n c) c (List.replicate n c) = c
  exact modeBest_const _ c n

theorem varQ_replicate (n : ℕ) (c : ℚ) : varQ (List.replicate (n + 1) c) = 0 := by
  unfold varQ
  rw [sumQ_replicate, List.length_replicate]
  have hmean : ((n : ℚ) + 1) * c / ((n : ℚ) + 1) = c :=
    mul_div_cancel_left₀ c (Nat.cast_add_one_ne_zero n)
  push_cast
  rw [hmean, List.map_replicate]
  simp [sumQ_replicate]

theorem pymean_replicate (n : ℕ) (c : ℚ) :
    pymean (List.replicate (n + 1) (.fin c)) = .fin c := by
  unfold pymean
  rw [filterMap_toQ_replicate, any_isNan_replicate, sumQ_replicate, List.length_replicate,
    List.isEmpty_replicate]
  simp only [Bool.or_false, decide_eq_true_eq]
  rw [if_neg (by simp)]
  push_cast
  rw [mul_div_cancel_left₀ c (Nat.cast_add_one_ne_zero n)]

theorem pymedian_replicate (n : ℕ) (c : ℚ) :
    pymedian (List.replicate (n + 1) (.fin c)) = .fin c := by
  unfold pymedian
  rw [filterMap_toQ_replicate, any_isNan_replicate, List.isEmpty_replicate]
  simp only [Bool.or_false, decide_eq_true_eq]
  rw [if_neg (by simp), medianQ_replicate]

theorem pymode_replicate (n : ℕ) (c : ℚ) :
    pymode (List.replicate (n + 1) (.fin c)) = .ok (.fin c) := by
  unfold pymode
  rw [filterMap_toQ_replicate, any_isNan_replicate, List.isEmpty_replicate]
  simp only [decide_eq_true_eq]
  rw [if_neg (by simp), if_neg (by simp), modeQ_replicate]

theorem pystd_replicate (S : ℚ → ℚ) (n : ℕ) (c : ℚ) (hS : S 0 = 0) :
    pystd S (List.replicate (n + 1) (.fin c)) = .fin 0 := by
  unfold pystd
  rw [filterMap_toQ_replicate, any_isNan_replicate, List.isEmpty_replicate]
  simp only [Bool.or_false, decide_eq_true_eq]
  rw [if_neg (by simp), varQ_replicate, hS]

theorem baseRow_replicate (S : ℚ → ℚ) (n : ℕ) (c : ℚ) (hS : S 0 = 0) :
    baseRow S (List.replicate (n + 1) (.fin c)) = .ok (.fin c, .fin c, .fin c, .fin 0) := by
  unfold baseRow
  rw [pymode_replicate, ebind_ok, pymean_replicate, pymedian_replicate,
    pystd_replicate S n c hS]
  rfl

theorem ebind_pure_eq_map {ε α β : Type _} (x : Except ε α) (g : α → β) :
    (x >>= fun a => pure (g a)) = x.map g := by
  cases x <;> rfl

theorem base_metrics_loaded (S : ℚ → ℚ) (env : Env) (tpl : List TmplPart)
    (sub : Record) (p : String) (data : List (List PyF))
    (hp : resolvePath env tpl sub = .ok p) (hd4 : env.fs4 p = some data) :
    base_metrics S env tpl sub = (mapE (baseRow S) data).map (fun rows =>
      { mean := rows.map (fun r => r.1), median := rows.map (fun r => r.2.1),
        mode := rows.map (fun r => r.2.2.1), std := rows.map (fun r => r.2.2.2),
        meta := metaFields.filterMap (fun f => (sub.lookup f).map (fun v => (f, v))) }) := by
  unfold base_metrics
  rw [hp, ebind_ok, hd4]
  exact ebind_pure_eq_map _ _

/-- Claim C4: for a 4-D input whose series axis holds constant-valued
volumes, `base_metrics` succeeds, returns exactly one row per volume,
and each row has standard deviation 0 and mean, median and mode equal to
that volume's constant value. -/
theorem C4_constant_volumes_rows
    (S : ℚ → ℚ) (env : Env) (tpl : List TmplPart) (sub : Record) (p : String)
    (data : List (List PyF))
    (hp : resolvePath env tpl sub = .ok p) (hd4 : env.fs4 p = some data)
    (hconst : ∀ vol ∈ data, ∃ n c, vol = List.replicate (n + 1) (PyF.fin c))
    (hS : S 0 = 0) :
    okB (base_metrics S env tpl sub) = true ∧
    ∀ df, base_metrics S env tpl sub = .ok df →
      df.mean.length = data.length ∧ df.median.length = data.length ∧
      df.mode.length = data.length ∧ df.std.length = data.length ∧
      ∀ i n c, data.get? i = some (List.replicate (n + 1) (PyF.fin c)) →
        df.mean.get? i = some (.fin c) ∧ df.median.get? i = some (.fin c) ∧
        df.mode.get? i = some (.fin c) ∧ df.std.get? i = some (.fin 0) := by
  have hrows : ∀ vol ∈ data, okB (baseRow S vol) = true := by
    intro vol hv
    obtain ⟨n, c, hnc⟩ := hconst vol hv
    rw [hnc, baseRow_replicate S n c hS]
    rfl
  have hbm := base_metrics_loaded S env tpl sub p data hp hd4
  constructor
  · obtain ⟨rows, hm⟩ := okB_eq_true_iff.mp (mapE_ok_of_forall hrows)
    rw [hbm, hm, emap_ok]
    rfl
  · intro df hdf
    rw [hbm] at hdf
    cases hm : mapE (baseRow S) data with
    | error e => rw [hm, emap_err] at hdf; cases hdf
    | ok rows =>
      rw [hm, emap_ok] at hdf
      injection hdf with hdfv
      subst hdfv
      have hlen := mapE_ok_length hm
      refine ⟨by simp [hlen], by simp [hlen], by simp [hlen], by simp [hlen], ?_⟩
      intro i n c hi
      obtain ⟨b, hb, hfb⟩ := mapE_ok_get? hm i _ hi
      rw [baseRow_replicate S n c hS] at hfb
      injection hfb with hbv
      subst hbv
      refine ⟨?_, ?_, ?_, ?_⟩ <;>
        · rw [List.get?_map, hb]
          rfl

/-- Claim C4 witness: a 4-D series of two constant volumes (one volume of
2s, three volumes worth of 5s as a single constant slice list), giving
two rows with std 0 and mean = median = mode = the constant. -/
theorem C4_constant_volumes_rows_witness :
    base_metrics (fun q => q) constSeriesEnv [.lit "d"] [] =
      .ok { mean := [.fin 2, .fin 5], median := [.fin 2, .fin 5], mode := [.fin 2, .fin 5],
            std := [.fin 0, .fin 0], meta := [] } ∧
    ([.fin 2, .fin 5] : List PyF).length =
      ([List.replicate 1 (PyF.fin 2), List.replicate 3 (PyF.fin 5)] :
        List (List PyF)).length ∧
    ([.fin 0, .fin 0] : List PyF).get? 1 = some (.fin 0) := by
  have h : base_metrics (fun q => q) constSeriesEnv [.lit "d"] [] =
      .ok { mean := [.fin 2, .fin 5], median := [.fin 2, .fin 5], mode := [.fin 2, .fin 5],
            std := [.fin 0, .fin 0], meta := [] } := by decide
  have hc := C4_constant_volumes_rows (fun q => q) constSeriesEnv [.lit "d"] [] "d"
    [List.replicate 1 (PyF.fin 2), List.replicate 3 (PyF.fin 5)] rfl rfl
    (by
      intro vol hv
      rcases List.mem_cons.mp hv with h1 | h1
      · exact ⟨0, 2, h1⟩
      · rcases List.mem_singleton.mp h1 with h2
        exact ⟨2, 5, by rw [h2]⟩)
    rfl
  have hd := hc.2 _ h
  exact ⟨h, hd.1, ((hd.2.2.2.2 1 2 5 rfl).2.2.2)⟩

/- ---------------------------------------------------------------- -/
/- Claim C9                                                         -/
/- ---------------------------------------------------------------- -/

theorem isEmpty_false_of_mem {α : Type _} {x : α} {l : List α} (h : x ∈ l) :
    l.isEmpty = false := by
  cases l with
  | nil => cases h
  | cons a t => rfl

theorem isEmpty_false_of_ne_nil {α : Type _} {l : List α} (h : l ≠ []) :
    l.isEmpty = false := by
  cases l with
  | nil => exact absurd rfl h
  | cons a t => rfl

theorem minQ_mem : ∀ (l : List ℚ), l ≠ [] → minQ l ∈ l := by
  intro l
  induction l with
  | nil => intro h; exact absurd rfl h
  | cons a t ih =>
    intro _
    cases t with
    | nil => simp [minQ]
    | cons b t2 =>
      show min a (minQ (b :: t2)) ∈ a :: b :: t2
      rcases min_cases a (minQ (b :: t2)) with ⟨heq, _⟩ | ⟨heq, _⟩
      · rw [heq]; exact List.mem_cons_self _ _
      · rw [heq]; exact List.mem_cons_of_mem a (ih (by simp))

theorem pymean_nan_of_mem (l : List PyF) (h : PyF.nan ∈ l) : pymean l = .nan := by
  have hany : l.any PyF.isNan = true := List.any_eq_true.mpr ⟨.nan, h, rfl⟩
  simp [pymean, hany]

theorem pymean_fin (l : List PyF) (hne : l ≠ []) (hno : l.any PyF.isNan = false) :
    ∃ q, pymean l = .fin q :=
  ⟨sumQ (l.filterMap PyF.toQ) / (l.length : ℚ),
    by simp [pymean, isEmpty_false_of_ne_nil hne, hno]⟩

theorem pymedian_fin (l : List PyF) (hne : l ≠ []) (hno : l.any PyF.isNan = false) :
    ∃ q, pymedian l = .fin q :=
  ⟨medianQ (l.filterMap PyF.toQ),
    by simp [pymedian, isEmpty_false_of_ne_nil hne, hno]⟩

theorem okFinPair_mean_median (l : List PyF) (hne : l ≠ [])
    (hno : l.any PyF.isNan = false) :
    okFinPair (.ok (pymean l, pymedian l)) = true := by
  obtain ⟨qm, hm⟩ := pymean_fin l hne hno
  obtain ⟨qd, hd⟩ := pymedian_fin l hne hno
  rw [hm, hd]
  rfl

/-- The full result of `significant_signal` once the path resolves, the
file loads and `np.min` succeeds on the nonzero values. -/
theorem significant_signal_result (L : ℚ → ℚ) (env : Env) (tpl : List TmplPart)
    (sub : Record) (mp p : String) (data ret : List PyF) (dmin0 : PyF)
    (hp : resolvePath env tpl sub = .ok p) (hd : env.fs p = some data)
    (hret : sigRetained env data mp = .ok ret)
    (hmin : pymin (ret.filter PyF.isNonzero) = .ok dmin0) :
    significant_signal L env tpl sub mp =
      .ok (pymean ((ret.map (fun x =>
              if x.isZero then dmin0.mul (.fin (99 / 100)) else x)).map (neglog10 L)),
           pymedian ((ret.map (fun x =>
              if x.isZero then dmin0.mul (.fin (99 / 100)) else x)).map (neglog10 L))) := by
  rw [significant_signal_loaded L env tpl sub mp p data hp hd, hret, ebind_ok, hmin, ebind_ok]
  rfl

theorem sigRetained_no_mask (env : Env) (data : List PyF) :
    sigRetained env data "" = .ok data := rfl

/-- Claim C9: NaN voxels are removed before the statistics iff a mask is
supplied.  (i) with no mask a NaN voxel survives and the returned mean is
NaN; (ii) with a mask, the retained voxel list contains no NaN at all;
(iii) consequently, a NaN-free nonnegative retained list with at least
one nonzero voxel yields finite (non-NaN) mean and median, even when the
loaded data contained NaN. -/
theorem C9_nan_dropped_iff_mask
    (L : ℚ → ℚ) (env : Env) (tpl : List TmplPart) (sub : Record)
    (p mp : String) (data ret : List PyF)
    (hp : resolvePath env tpl sub = .ok p) (hd : env.fs p = some data) :
    (data.any PyF.isNan = true →
      okFst (significant_signal L env tpl sub "") = some .nan) ∧
    (mp ≠ "" → sigRetained env data mp = .ok ret → ∀ x ∈ ret, x.isNan = false) ∧
    (sigRetained env data mp = .ok ret → (∀ x ∈ ret, x.isNan = false) →
      (∀ q, PyF.fin q ∈ ret → 0 ≤ q) → ret.filter PyF.isNonzero ≠ [] →
      okFinPair (significant_signal L env tpl sub mp) = true) := by
  refine ⟨?_, ?_, ?_⟩
  · -- (i): no mask, NaN kept, mean is NaN
    intro hnan
    obtain ⟨x, hx, hxn⟩ := List.any_eq_true.mp hnan
    have hxnan : x = PyF.nan := by
      cases x with
      | nan => rfl
      | fin q => exact absurd hxn (by simp [PyF.isNan])
    subst hxnan
    have hmemnz : PyF.nan ∈ data.filter PyF.isNonzero :=
      List.mem_filter.mpr ⟨hx, rfl⟩
    have hminv : pymin (data.filter PyF.isNonzero) = .ok .nan := by
      have h1 : (data.filter PyF.isNonzero).isEmpty = false := isEmpty_false_of_mem hmemnz
      have h2 : (data.filter PyF.isNonzero).any PyF.isNan = true :=
        List.any_eq_true.mpr ⟨.nan, hmemnz, rfl⟩
      simp [pymin, h1, h2]
    rw [significant_signal_result L env tpl sub "" p data data .nan hp hd
      (sigRetained_no_mask env data) hminv]
    have hmem3 : PyF.nan ∈ ((data.map (fun x =>
        if x.isZero then PyF.mul .nan (.fin (99 / 100)) else x)).map (neglog10 L)) :=
      List.mem_map.mpr ⟨.nan, List.mem_map.mpr ⟨.nan, hx, rfl⟩, rfl⟩
    rw [show okFst (.ok (pymean ((data.map (fun x =>
        if x.isZero then PyF.mul .nan (.fin (99 / 100)) else x)).map (neglog10 L)),
        pymedian ((data.map (fun x =>
        if x.isZero then PyF.mul .nan (.fin (99 / 100)) else x)).map (neglog10 L)))) =
        some (pymean ((data.map (fun x =>
        if x.isZero then PyF.mul .nan (.fin (99 / 100)) else x)).map (neglog10 L))) from rfl]
    rw [pymean_nan_of_mem _ hmem3]
  · -- (ii): the mask branch drops every NaN voxel
    intro hmp hret
    unfold sigRetained at hret
    rw [if_neg hmp] at hret
    split at hret
    · cases hret
    · split at hret
      · injection hret with hretv
        subst hretv
        intro x hxm
        rw [dropNan] at hxm
        have hmf := List.mem_filter.mp hxm
        simpa using hmf.2
      · cases hret
  · -- (iii): NaN-free nonnegative retained voxels give finite statistics
    intro hret hnonan hpos hnz
    have hno_nz : (ret.filter PyF.isNonzero).any PyF.isNan = false := by
      rw [List.any_eq_false]
      intro x hxm
      simp [hnonan x (List.mem_filter.mp hxm).1]
    have hqs_ne : (ret.filter PyF.isNonzero).filterMap PyF.toQ ≠ [] := by
      cases hc : ret.filter PyF.isNonzero with
      | nil => exact absurd hc hnz
      | cons x t =>
        have hxr : x ∈ ret := (List.mem_filter.mp (hc ▸ List.mem_cons_self x t)).1
        have hxno : x.isNan = false := hnonan x hxr
        cases x with
        | nan => cases hxno
        | fin q => simp [List.filterMap_cons, PyF.toQ]
    have hminmem := minQ_mem _ hqs_ne
    obtain ⟨x, hxnz, hxq⟩ := List.mem_filterMap.mp hminmem
    have hxfin : x = PyF.fin (minQ ((ret.filter PyF.isNonzero).filterMap PyF.toQ)) := by
      cases x with
      | nan => cases hxq
      | fin q =>
        have : q = minQ ((ret.filter PyF.isNonzero).filterMap PyF.toQ) := by
          simpa [PyF.toQ] using hxq
        rw [this]
    have hmpos : 0 < minQ ((ret.filter PyF.isNonzero).filterMap PyF.toQ) := by
      rw [hxfin] at hxnz
      have hmf := List.mem_filter.mp hxnz
      have hle : 0 ≤ minQ ((ret.filter PyF.isNonzero).filterMap PyF.toQ) :=
        hpos _ hmf.1
      have hne0 : minQ ((ret.filter PyF.isNonzero).filterMap PyF.toQ) ≠ 0 := by
        intro h0
        have := hmf.2
        rw [PyF.isNonzero, PyF.isZero, h0] at this
        simp at this
      exact lt_of_le_of_ne hle (Ne.symm hne0)
    have hmin : pymin (ret.filter PyF.isNonzero) =
        .ok (.fin (minQ ((ret.filter PyF.isNonzero).filterMap PyF.toQ))) := by
      simp [pymin, isEmpty_false_of_ne_nil hnz, hno_nz]
    rw [significant_signal_result L env tpl sub mp p data ret _ hp hd hret hmin]
    have hret_ne : ret ≠ [] := by
      intro h
      rw [h] at hnz
      exact hnz rfl
    apply okFinPair_mean_median
    · rw [Ne, List.map_eq_nil, List.map_eq_nil]
      exact hret_ne
    · rw [List.any_eq_false]
      intro y hy
      obtain ⟨z, hz2, hzy⟩ := List.mem_map.mp hy
      obtain ⟨x0, hx0, hx0z⟩ := List.mem_map.mp hz2
      have hzfin : ∃ qz, z = PyF.fin qz ∧ 0 < qz := by
        by_cases hz0 : x0.isZero = true
        · refine ⟨minQ ((ret.filter PyF.isNonzero).filterMap PyF.toQ) * (99 / 100), ?_, ?_⟩
          · rw [← hx0z, if_pos hz0]
            rfl
          · exact mul_pos hmpos (by norm_num)
        · have hx0no : x0.isNan = false := hnonan x0 hx0
          cases x0 with
          | nan => cases hx0no
          | fin q0 =>
            have hq0ne : q0 ≠ 0 := by
              intro h0
              rw [PyF.isZero, h0] at hz0
              simp at hz0
            have hq0pos : 0 < q0 :=
              lt_of_le_of_ne (hpos q0 hx0) (Ne.symm hq0ne)
            refine ⟨q0, ?_, hq0pos⟩
            rw [← hx0z, if_neg hz0]
      obtain ⟨qz, hzq, hqpos⟩ := hzfin
      rw [← hzy, hzq]
      simp [neglog10, hqpos, PyF.isNan]

/-- Claim C9 witness: the map `[1, NaN, 2]`: with no mask the mean is
NaN; with the all-retaining mask `[1, 1, 1]` the NaN voxel is dropped
and both statistics are finite. -/
theorem C9_nan_dropped_iff_mask_witness :
    ([PyF.fin 1, .nan, .fin 2] : List PyF).any PyF.isNan = true ∧
    okFst (significant_signal (fun q => q) nanMapEnv [.lit "d"] [] "") = some .nan ∧
    sigRetained nanMapEnv [PyF.fin 1, .nan, .fin 2] "m" = .ok [PyF.fin 1, .fin 2] ∧
    (∀ x ∈ ([PyF.fin 1, .fin 2] : List PyF), x.isNan = false) ∧
    okFinPair (significant_signal (fun q => q) nanMapEnv [.lit "d"] [] "m") = true := by
  have hc := C9_nan_dropped_iff_mask (fun q => q) nanMapEnv [.lit "d"] [] "d" "m"
    [PyF.fin 1, .nan, .fin 2] [PyF.fin 1, .fin 2] rfl rfl
  have hretc : sigRetained nanMapEnv [PyF.fin 1, .nan, .fin 2] "m" =
      .ok [PyF.fin 1, .fin 2] := by decide
  have hnonan := hc.2.1 (by decide) hretc
  refine ⟨by decide, hc.1 (by decide), hretc, hnonan, ?_⟩
  refine hc.2.2 hretc hnonan ?_ (by decide)
  intro q hq
  rcases List.mem_cons.mp hq with h1 | h1
  · rw [show q = 1 from by injection h1]
    norm_num
  · rw [show q = 2 from by injection (List.mem_singleton.mp h1)]
    norm_num
